import Mathlib

/-!
Verification development for the rollouts-plugin-metric-ai repository
(Go).  Strings are modelled as `List Char`; Go slice expressions, which
panic when their bounds are out of range, are modelled as `Option`-valued
slicing.  Each definition is a direct translation of the Go function it
is named after; external library behaviour (Go `strings`, `encoding/json`,
`cenkalti/backoff/v5`, the `genai` error type) is modelled in clearly
marked definitions.
-/

namespace MetricAI

/-- Model of Go string slicing `s[lo:hi]`: `none` models the runtime
panic "slice bounds out of range" raised when `lo > hi` or `hi > len(s)`. -/
def goSlice (s : List Char) (lo hi : Nat) : Option (List Char) :=
  if lo ≤ hi ∧ hi ≤ s.length then some ((s.drop lo).take (hi - lo)) else none

/-- Model of Go string slicing `s[lo:]`: `none` models the panic when
`lo > len(s)`. -/
def goSliceFrom (s : List Char) (lo : Nat) : Option (List Char) :=
  if lo ≤ s.length then some (s.drop lo) else none

/-- Whether `pat` is an initial segment of `l` (the comparison
`s[i:i+len(substr)] == substr` of the Go `findIndex` loop, at offset 0). -/
def listStartsWith : List Char → List Char → Bool
  | _, [] => true
  | [], _ :: _ => false
  | c :: t, p :: q => c = p && listStartsWith t q

/-- Worker for `findIndex`: scans suffixes of `l`, reporting the absolute
index `i` of the first suffix that starts with `pat`.  The Go loop
`for i := 0; i <= len(s)-len(substr); i++` stops as soon as fewer than
`len(substr)` characters remain, which is exactly when no suffix can
start with `pat` any more. -/
def findIndexAux : List Char → List Char → Nat → Option Nat
  | l, pat, i =>
    if listStartsWith l pat then some i
    else
      match l with
      | [] => none
      | _ :: t => findIndexAux t pat (i + 1)

/-- Translation of the Go helper `findIndex(s, substr)` (part_004
lines 135–142), with `none` for the Go return value `-1`. -/
def findIndex (s pat : List Char) : Option Nat :=
  findIndexAux s pat 0

def stableMarker : List Char := ("--- STABLE LOGS ---").data

def canaryMarker : List Char := ("--- CANARY LOGS ---").data

/-- Translation of `splitLogs(logsContext)` (part_004 lines 116–133).
When both markers are found the Go code evaluates
`logsContext[stableIdx+len(stableMarker):canaryIdx]` and
`logsContext[canaryIdx+len(canaryMarker):]`; `none` models the slice
panic.  When either marker is missing it returns `(logsContext, "")`. -/
def splitLogs (s : List Char) : Option (List Char × List Char) :=
  match findIndex s stableMarker, findIndex s canaryMarker with
  | some stableIdx, some canaryIdx =>
    match goSlice s (stableIdx + stableMarker.length) canaryIdx,
          goSliceFrom s (canaryIdx + canaryMarker.length) with
    | some stableLogs, some canaryLogs => some (stableLogs, canaryLogs)
    | _, _ => none
  | _, _ => some (s, [])

/-- Basic fact about `listStartsWith`: a match needs at least
`pat.length` characters. -/
theorem listStartsWith_length {l pat : List Char}
    (h : listStartsWith l pat = true) : pat.length ≤ l.length := by
  induction pat generalizing l with
  | nil => simp
  | cons p q ih =>
    cases l with
    | nil => simp [listStartsWith] at h
    | cons c t =>
      simp only [listStartsWith, Bool.and_eq_true] at h
      simpa using Nat.succ_le_succ (ih h.2)

/-- A hit of `findIndexAux` lies inside the string: starting the scan at
offset `i`, a reported index `j` satisfies `i ≤ j` and the full pattern
fits before the end of the string. -/
theorem findIndexAux_bound {l pat : List Char} {i j : Nat}
    (h : findIndexAux l pat i = some j) :
    i ≤ j ∧ j - i + pat.length ≤ l.length := by
  induction l generalizing i with
  | nil =>
    rw [findIndexAux] at h
    by_cases hs : listStartsWith [] pat = true
    · simp only [hs, if_pos] at h
      cases h
      have := listStartsWith_length hs
      simpa using this
    · simp [hs] at h
  | cons c t ih =>
    rw [findIndexAux] at h
    by_cases hs : listStartsWith (c :: t) pat = true
    · simp only [hs, if_pos] at h
      cases h
      exact ⟨Nat.le_refl _, by simpa using listStartsWith_length hs⟩
    · simp only [hs, if_neg, Bool.false_eq_true, not_false_iff] at h
      have := ih h
      refine ⟨by omega, ?_⟩
      simp only [List.length_cons]
      omega

/-- A found marker fits in the string. -/
theorem findIndex_bound {s pat : List Char} {j : Nat}
    (h : findIndex s pat = some j) : j + pat.length ≤ s.length := by
  have := findIndexAux_bound h
  omega

end MetricAI

namespace MetricAI

/-- Brace contribution of one character to the nesting depth of the
`extractFirstJSON` scan. -/
def braceDelta (c : Char) : Int :=
  if c = '{' then 1 else if c = '}' then -1 else 0

/-- Brace-nesting count of a character list: number of opening braces
minus number of closing braces. -/
def braceBal (l : List Char) : Int :=
  (l.map braceDelta).sum

/-- The loop of `extractFirstJSON` (utils.go lines 240–251): walks the
string from the first opening brace, incrementing `depth` at `{`,
decrementing at `}`, and returning the consumed prefix as soon as the
depth returns to zero; `acc` is the reversed prefix consumed so far. -/
def scanFrom : List Char → Int → List Char → Option (List Char)
  | [], _, _ => none
  | c :: t, depth, acc =>
    if c = '{' then scanFrom t (depth + 1) (c :: acc)
    else if c = '}' then
      if depth - 1 = 0 then some (c :: acc).reverse
      else scanFrom t (depth - 1) (c :: acc)
    else scanFrom t depth (c :: acc)

/-- Translation of `extractFirstJSON(s)` (utils.go lines 235–252).
`strings.Index(s, "{")` is modelled by dropping the longest prefix free
of `{`; the Go function returns `""` when there is no opening brace or
when the scan runs off the end of the string. -/
def extractFirstJSON (s : List Char) : List Char :=
  let suffix := s.dropWhile (fun c => !(c = '{' : Bool))
  if suffix = [] then [] else (scanFrom suffix 0 []).getD []

/-- The specification's description of extraction, written from its
words: scan for the first opening brace; the result is the substring
from that brace up to the first position where the brace-nesting count
returns to zero; empty when there is no opening brace or the count
never returns to zero. -/
def extractFirstJSONSpec (s : List Char) : List Char :=
  let suffix := s.dropWhile (fun c => !(c = '{' : Bool))
  match (List.range suffix.length).find?
      (fun n => braceBal (suffix.take (n + 1)) == 0) with
  | some n => suffix.take (n + 1)
  | none => []

/-- The predicate satisfied exactly at the indices where the scan loop
returns: the character is a closing brace and the depth reaches zero. -/
def closePred (l : List Char) (d : Int) (k : Nat) : Bool :=
  (l.getD k ' ' == '}') && (d + braceBal (l.take (k + 1)) == 0)

theorem closePred_succ (c : Char) (t : List Char) (d : Int) (k : Nat) :
    closePred (c :: t) d (k + 1) = closePred t (d + braceDelta c) k := by
  simp [closePred, braceBal, add_assoc]

theorem braceBal_singleton (c : Char) : braceBal [c] = braceDelta c := by
  simp [braceBal]

end MetricAI

namespace MetricAI

/-- The scan loop returns exactly at the first index satisfying
`closePred`, and the returned string is the consumed prefix up to and
including that index. -/
theorem scanFrom_eq (l : List Char) (d : Int) (acc : List Char) :
    scanFrom l d acc =
      ((List.range l.length).find? (closePred l d)).map
        (fun k => acc.reverse ++ l.take (k + 1)) := by
  induction l generalizing d acc with
  | nil => simp [scanFrom]
  | cons c t ih =>
    have hrange : List.range (c :: t).length
        = 0 :: (List.range t.length).map Nat.succ := by
      simp [List.range_succ_eq_map]
    by_cases hc : c = '{'
    · subst hc
      have hp0 : closePred ('{' :: t) d 0 = false := by
        simp [closePred]
      rw [scanFrom, if_pos rfl, ih, hrange, List.find?_cons_of_neg _ (by simp [hp0]),
        List.find?_map]
      have hcomp : (closePred ('{' :: t) d ∘ Nat.succ) = closePred t (d + 1) := by
        funext k
        have := closePred_succ '{' t d k
        simpa [braceDelta, Function.comp] using this
      rw [hcomp]
      cases (List.range t.length).find? (closePred t (d + 1)) with
      | none => simp
      | some k => simp [List.take_succ_cons]
    · by_cases hc2 : c = '}'
      · subst hc2
        have hbal : closePred ('}' :: t) d 0 = ((d - 1 : Int) == 0) := by
          simp [closePred, braceBal, braceDelta, sub_eq_add_neg]
        by_cases hd : (d - 1 : Int) = 0
        · rw [scanFrom, if_neg (by decide), if_pos rfl, if_pos hd, hrange,
            List.find?_cons_of_pos _ (by simp [hbal, hd])]
          simp
        · rw [scanFrom, if_neg (by decide), if_pos rfl, if_neg hd, ih, hrange,
            List.find?_cons_of_neg _ (by simp [hbal, hd]), List.find?_map]
          have hcomp : (closePred ('}' :: t) d ∘ Nat.succ) = closePred t (d - 1) := by
            funext k
            have := closePred_succ '}' t d k
            simpa [braceDelta, sub_eq_add_neg, Function.comp] using this
          rw [hcomp]
          cases (List.range t.length).find? (closePred t (d - 1)) with
          | none => simp
          | some k => simp [List.take_succ_cons]
      · have hp0 : closePred (c :: t) d 0 = false := by
          simp [closePred, hc2]
        rw [scanFrom, if_neg hc, if_neg hc2, ih, hrange,
          List.find?_cons_of_neg _ (by simp [hp0]), List.find?_map]
        have hcomp : (closePred (c :: t) d ∘ Nat.succ) = closePred t d := by
          funext k
          have := closePred_succ c t d k
          simpa [braceDelta, hc, hc2, Function.comp] using this
        rw [hcomp]
        cases (List.range t.length).find? (closePred t d) with
        | none => simp
        | some k => simp [List.take_succ_cons]

end MetricAI

namespace MetricAI

/-- While the running depth stays at least 1, the first index where the
depth returns to zero necessarily carries a closing brace, so the
specification's condition (count returns to zero) and the loop's
condition (`closePred`) pick the same index. -/
theorem find?_balance_eq_closePred (l : List Char) (d : Int) (hd : 1 ≤ d) :
    (List.range l.length).find? (fun n => d + braceBal (l.take (n + 1)) == 0)
      = (List.range l.length).find? (closePred l d) := by
  induction l generalizing d with
  | nil => simp
  | cons c t ih =>
    have hrange : List.range (c :: t).length
        = 0 :: (List.range t.length).map Nat.succ := by
      simp [List.range_succ_eq_map]
    have hdelta : braceDelta c = 1 ∨ braceDelta c = 0 ∨ braceDelta c = -1 := by
      unfold braceDelta
      by_cases h1 : c = '{' <;> by_cases h2 : c = '}' <;> simp [h1, h2]
    by_cases h0 : d + braceDelta c = 0
    · have hc : c = '}' ∧ d = 1 := by
        have : braceDelta c = -1 := by omega
        refine ⟨?_, by omega⟩
        by_contra hne
        unfold braceDelta at this
        by_cases h1 : c = '{' <;> simp [h1, hne] at this
      rw [hrange, List.find?_cons_of_pos _ (by simp [braceBal_singleton]; omega),
        List.find?_cons_of_pos _ ?_]
      unfold closePred
      simp [hc.1, braceBal_singleton, braceDelta, hc.2]
    · have hnext : 1 ≤ d + braceDelta c := by
        rcases hdelta with h | h | h
        · omega
        · omega
        · have hcc : c = '}' := by
            unfold braceDelta at h
            by_cases h1 : c = '{'
            · simp [h1] at h
            · by_cases h2 : c = '}'
              · exact h2
              · simp [h1, h2] at h
          omega
      have hcomp1 :
          ((fun n => d + braceBal ((c :: t).take (n + 1)) == 0) ∘ Nat.succ)
            = (fun n => (d + braceDelta c) + braceBal (t.take (n + 1)) == 0) := by
        funext k
        simp [Function.comp, braceBal, add_assoc]
      have hcomp2 : (closePred (c :: t) d ∘ Nat.succ) = closePred t (d + braceDelta c) := by
        funext k
        simpa [Function.comp] using closePred_succ c t d k
      rw [hrange, List.find?_cons_of_neg _ (by simp [braceBal_singleton]; omega),
        List.find?_cons_of_neg _ (by simp [closePred, braceBal_singleton]; omega),
        List.find?_map, List.find?_map, hcomp1, hcomp2, ih _ hnext]

/-- The first element kept by `dropWhile` falsifies the predicate. -/
theorem dropWhile_head_false {p : Char → Bool} {l : List Char} {c : Char}
    {rest : List Char} (h : l.dropWhile p = c :: rest) : p c = false := by
  induction l with
  | nil => simp at h
  | cons a t ih =>
    rw [List.dropWhile_cons] at h
    by_cases hp : p a = true
    · exact ih (by simpa [hp] using h)
    · have hac : a = c := by
        simp only [hp, if_neg, Bool.false_eq_true, not_false_iff, ite_false] at h
        exact (List.cons.injEq _ _ _ _ ▸ h).1
      rw [← hac]
      simpa using hp

end MetricAI

namespace MetricAI

theorem spec_find_eq_closePred (rest : List Char) :
    (List.range ('{' :: rest).length).find?
        (fun n => braceBal (('{' :: rest).take (n + 1)) == 0)
      = (List.range ('{' :: rest).length).find? (closePred ('{' :: rest) 0) := by
  have hrange : List.range ('{' :: rest).length
      = 0 :: (List.range rest.length).map Nat.succ := by
    simp [List.range_succ_eq_map]
  have hcomp1 :
      ((fun n => braceBal (('{' :: rest).take (n + 1)) == 0) ∘ Nat.succ)
        = (fun n => (1 : Int) + braceBal (rest.take (n + 1)) == 0) := by
    funext k
    simp [Function.comp, braceBal, braceDelta]
  have hcomp2 : (closePred ('{' :: rest) 0 ∘ Nat.succ) = closePred rest 1 := by
    funext k
    have := closePred_succ '{' rest 0 k
    simpa [braceDelta, Function.comp] using this
  rw [hrange, List.find?_cons_of_neg _ (by simp [braceBal, braceDelta]),
    List.find?_cons_of_neg _ (by simp [closePred]),
    List.find?_map, List.find?_map, hcomp1, hcomp2,
    find?_balance_eq_closePred rest 1 (le_refl 1)]

end MetricAI

namespace MetricAI

/-- C6: for every input string, `extractFirstJSON` returns exactly the
substring from the first opening brace to the position where the
brace-nesting count first returns to zero (the first top-level
brace-delimited object, including nested braces, even if more objects
follow), and the empty string when there is no opening brace or the
first opening brace is never balanced — stated as equality with the
specification-side description `extractFirstJSONSpec`. -/
theorem extractFirstJSON_matches_spec (s : List Char) :
    extractFirstJSON s = extractFirstJSONSpec s := by
  unfold extractFirstJSON extractFirstJSONSpec
  cases hsuf : s.dropWhile (fun c => !(c = '{' : Bool)) with
  | nil => simp
  | cons c rest =>
    have hc : c = '{' := by
      have := dropWhile_head_false hsuf
      simpa using this
    subst hc
    simp only [List.cons_ne_nil, if_neg, reduceCtorEq, not_false_iff, ite_false]
    rw [scanFrom_eq, spec_find_eq_closePred]
    cases (List.range ('{' :: rest).length).find? (closePred ('{' :: rest) 0) with
    | none => simp
    | some k => simp

end MetricAI

namespace MetricAI

/-- C9 (counterexample): the input
`"--- STABLE LOGS --- CANARY LOGS ---"` contains both markers (the
stable marker at index 0 and the canary marker at index 16, inside the
overlap), yet `splitLogs` does not return a pair of substrings at all:
the Go slice `logsContext[19:16]` panics, modelled here by `none`. -/
theorem splitLogs_overlap_counterexample :
    findIndex ("--- STABLE LOGS --- CANARY LOGS ---").data stableMarker = some 0 ∧
    findIndex ("--- STABLE LOGS --- CANARY LOGS ---").data canaryMarker = some 16 ∧
    splitLogs ("--- STABLE LOGS --- CANARY LOGS ---").data = none := by
  refine ⟨by decide, by decide, by decide⟩

/-- C9 (amended): when both markers are found and the canary marker
starts at or after the end of the stable marker, `splitLogs` returns
exactly the substring between the end of the stable marker and the
start of the canary marker as stable logs, and the substring after the
canary marker as canary logs; when either marker is missing it returns
the entire input as stable logs and the empty string as canary logs.
(When both markers are present but the canary marker starts before the
end of the stable marker, the slice bounds are inverted and the Go code
panics instead of returning.) -/
theorem splitLogs_spec (s : List Char) :
    (∀ si ci, findIndex s stableMarker = some si →
      findIndex s canaryMarker = some ci →
      si + stableMarker.length ≤ ci →
      splitLogs s =
        some ((s.drop (si + stableMarker.length)).take
                (ci - (si + stableMarker.length)),
              s.drop (ci + canaryMarker.length))) ∧
    ((findIndex s stableMarker = none ∨ findIndex s canaryMarker = none) →
      splitLogs s = some (s, [])) := by
  constructor
  · intro si ci hs hc hord
    have hcb : ci + canaryMarker.length ≤ s.length := findIndex_bound hc
    have hci : ci ≤ s.length := by omega
    unfold splitLogs
    rw [hs, hc]
    simp [goSlice, goSliceFrom, hord, hci, hcb]
  · intro h
    unfold splitLogs
    rcases h with h | h
    · rw [h]
    · rw [h]
      cases findIndex s stableMarker <;> rfl

/-- C9 witness: the amended statement evaluated on a well-formed log
context. -/
theorem splitLogs_spec_witness :
    splitLogs ("--- STABLE LOGS ---\nAAA\n\n--- CANARY LOGS ---\nBBB").data =
      some ((("--- STABLE LOGS ---\nAAA\n\n--- CANARY LOGS ---\nBBB").data.drop
               (0 + stableMarker.length)).take (25 - (0 + stableMarker.length)),
            ("--- STABLE LOGS ---\nAAA\n\n--- CANARY LOGS ---\nBBB").data.drop
              (25 + canaryMarker.length)) :=
  (splitLogs_spec
    ("--- STABLE LOGS ---\nAAA\n\n--- CANARY LOGS ---\nBBB").data).1
    0 25 (by decide) (by decide) (by decide)

end MetricAI

namespace MetricAI

/-- C10: on the input `"--- CANARY LOGS ------ STABLE LOGS ---"`, where
the canary marker (index 0) precedes the stable marker (index 19), the
stable-logs slice of `splitLogs` is `logsContext[38:0]` — lower bound
above upper bound — and the Go code panics with "slice bounds out of
range" instead of returning a pair: `splitLogs` is not total. -/
theorem splitLogs_not_total_on_reordered_markers :
    findIndex ("--- CANARY LOGS ------ STABLE LOGS ---").data stableMarker
        = some 19 ∧
    findIndex ("--- CANARY LOGS ------ STABLE LOGS ---").data canaryMarker
        = some 0 ∧
    splitLogs ("--- CANARY LOGS ------ STABLE LOGS ---").data = none := by
  refine ⟨by decide, by decide, by decide⟩

end MetricAI

namespace MetricAI

/-- JSON values, for the model of Go `encoding/json`. -/
inductive Jval where
  | jnull
  | jbool (b : Bool)
  | jint (n : Int) (integral : Bool)
  | jstr (s : List Char)
  | jarr (xs : List Jval)
  | jobj (fields : List (List Char × Jval))

/-- JSON insignificant whitespace. -/
def isJsonWs (c : Char) : Bool :=
  c = ' ' || c = '\n' || c = '\t' || c = '\r'

def skipWs (l : List Char) : List Char :=
  l.dropWhile isJsonWs

/-- Decoding of the single-character JSON string escapes (Go accepts
exactly `" \\ / b f n r t` here; `\uXXXX` is handled separately). -/
def decodeEsc (c : Char) : Option Char :=
  if c = '"' then some '"'
  else if c = '\\' then some '\\'
  else if c = '/' then some '/'
  else if c = 'b' then some (Char.ofNat 8)
  else if c = 'f' then some (Char.ofNat 12)
  else if c = 'n' then some '\n'
  else if c = 't' then some '\t'
  else if c = 'r' then some '\r'
  else none

/-- Value of one hexadecimal digit (either case, as Go's `getu4`). -/
def hexVal (c : Char) : Option Nat :=
  if '0' ≤ c ∧ c ≤ '9' then some (c.toNat - 48)
  else if 'a' ≤ c ∧ c ≤ 'f' then some (c.toNat - 87)
  else if 'A' ≤ c ∧ c ≤ 'F' then some (c.toNat - 55)
  else none

/-- Four hexadecimal digits, as in `\uXXXX`. -/
def hex4 : List Char → Option (Nat × List Char)
  | a :: b :: c :: d :: rest =>
    match hexVal a, hexVal b, hexVal c, hexVal d with
    | some x, some y, some z, some w =>
      some (((x * 16 + y) * 16 + z) * 16 + w, rest)
    | _, _, _, _ => none
  | _ => none

def isHighSurrogate (n : Nat) : Bool := 55296 ≤ n && n ≤ 56319

def isLowSurrogate (n : Nat) : Bool := 56320 ≤ n && n ≤ 57343

def isSurrogateCode (n : Nat) : Bool := 55296 ≤ n && n ≤ 57343

/-- Body of a JSON string literal after the opening quote, following
Go's unquoting: the eight single-character escapes, `\uXXXX` with
upper- or lower-case hex digits, a surrogate pair combined into one
code point, and a surrogate not followed by a matching low surrogate
replaced by U+FFFD (consuming only the first escape).  Returns the
decoded content and the remainder after the closing quote.  The fuel
only serves termination; `parseStringAux` supplies enough for any
input. -/
def parseStringFuel : Nat → List Char → Option (List Char × List Char)
  | 0, _ => none
  | _ + 1, [] => none
  | fuel + 1, c :: t =>
    if c = '"' then some ([], t)
    else if c = '\\' then
      match t with
      | [] => none
      | 'u' :: t2 =>
        match hex4 t2 with
        | none => none
        | some (n, t3) =>
          if isSurrogateCode n then
            match t3 with
            | '\\' :: 'u' :: t4 =>
              match hex4 t4 with
              | some (m, t5) =>
                if isHighSurrogate n && isLowSurrogate m then
                  match parseStringFuel fuel t5 with
                  | some (s, r) =>
                    some (Char.ofNat (65536 + (n - 55296) * 1024 + (m - 56320)) :: s, r)
                  | none => none
                else
                  match parseStringFuel fuel t3 with
                  | some (s, r) => some (Char.ofNat 65533 :: s, r)
                  | none => none
              | none =>
                match parseStringFuel fuel t3 with
                | some (s, r) => some (Char.ofNat 65533 :: s, r)
                | none => none
            | _ =>
              match parseStringFuel fuel t3 with
              | some (s, r) => some (Char.ofNat 65533 :: s, r)
              | none => none
          else
            match parseStringFuel fuel t3 with
            | some (s, r) => some (Char.ofNat n :: s, r)
            | none => none
      | e :: t2 =>
        match decodeEsc e with
        | none => none
        | some ch =>
          match parseStringFuel fuel t2 with
          | some (s, r) => some (ch :: s, r)
          | none => none
    else
      match parseStringFuel fuel t with
      | some (s, r) => some (c :: s, r)
      | none => none

def parseStringAux (l : List Char) : Option (List Char × List Char) :=
  parseStringFuel (l.length + 1) l

def digitsToNat (ds : List Char) : Nat :=
  ds.foldl (fun a c => a * 10 + (c.toNat - 48)) 0

/-- Exponent part of a JSON number; a number with an exponent or a
fraction is not decodable into a Go `int`, which the `integral` flag
records. -/
def consumeExp (n : Int) (integral : Bool) (l : List Char) : Option (Jval × List Char) :=
  match l with
  | c :: r =>
    if c = 'e' || c = 'E' then
      let r1 : List Char := match r with
        | s :: r2 => if s = '+' || s = '-' then r2 else r
        | [] => r
      let ds : List Char := r1.takeWhile (fun c => c.isDigit)
      let rest : List Char := r1.dropWhile (fun c => c.isDigit)
      if ds = [] then none else some (Jval.jint n false, rest)
    else some (Jval.jint n integral, l)
  | [] => some (Jval.jint n integral, l)

/-- Whether a digit run violates the JSON grammar for the integer part
(`0` or a nonzero digit followed by digits — `012` is a syntax error in
Go). -/
def hasLeadingZero : List Char → Bool
  | '0' :: _ :: _ => true
  | _ => false

/-- JSON number literal. -/
def parseNumber (l : List Char) : Option (Jval × List Char) :=
  let neg := match l with
    | '-' :: _ => true
    | _ => false
  let l1 := if neg then l.drop 1 else l
  let ds := l1.takeWhile (fun c => c.isDigit)
  let r1 := l1.dropWhile (fun c => c.isDigit)
  if ds = [] then none
  else if hasLeadingZero ds then none
  else
    let n : Int := (if neg then -1 else 1) * (digitsToNat ds : Int)
    match r1 with
    | '.' :: r2 =>
      let fs := r2.takeWhile (fun c => c.isDigit)
      let r3 := r2.dropWhile (fun c => c.isDigit)
      if fs = [] then none else consumeExp n false r3
    | _ => consumeExp n true r1

mutual

/-- Model of the Go `encoding/json` scanner for one JSON value.  The
fuel argument only serves termination; `parseTopValue` supplies more
fuel than any input can consume. -/
def parseValue : Nat → List Char → Option (Jval × List Char)
  | 0, _ => none
  | fuel + 1, l =>
    match skipWs l with
    | [] => none
    | c :: t =>
      if c = '"' then
        match parseStringAux t with
        | some (s, r) => some (Jval.jstr s, r)
        | none => none
      else if c = '{' then parseObjRest fuel t [] true
      else if c = '[' then parseArrRest fuel t [] true
      else if c = 't' then
        if listStartsWith t ("rue").data then some (Jval.jbool true, t.drop 3)
        else none
      else if c = 'f' then
        if listStartsWith t ("alse").data then some (Jval.jbool false, t.drop 4)
        else none
      else if c = 'n' then
        if listStartsWith t ("ull").data then some (Jval.jnull, t.drop 3)
        else none
      else if c = '-' || c.isDigit then parseNumber (c :: t)
      else none

/-- Fields of a JSON object after the opening brace (`first` is true
before any field has been read, allowing the empty object). -/
def parseObjRest : Nat → List Char → List (List Char × Jval) → Bool →
    Option (Jval × List Char)
  | 0, _, _, _ => none
  | fuel + 1, l, acc, first =>
    match skipWs l with
    | [] => none
    | c :: t =>
      if c = '}' && first then some (Jval.jobj acc.reverse, t)
      else if c = '"' then
        match parseStringAux t with
        | none => none
        | some (key, r1) =>
          match skipWs r1 with
          | ':' :: r2 =>
            match parseValue fuel r2 with
            | none => none
            | some (v, r3) =>
              match skipWs r3 with
              | ',' :: r4 => parseObjRest fuel r4 ((key, v) :: acc) false
              | '}' :: r4 => some (Jval.jobj (((key, v) :: acc).reverse), r4)
              | _ => none
          | _ => none
      else none

/-- Elements of a JSON array after the opening bracket. -/
def parseArrRest : Nat → List Char → List Jval → Bool →
    Option (Jval × List Char)
  | 0, _, _, _ => none
  | fuel + 1, l, acc, first =>
    match skipWs l with
    | [] => none
    | c :: t =>
      if c = ']' && first then some (Jval.jarr acc.reverse, t)
      else
        match parseValue fuel (c :: t) with
        | none => none
        | some (v, r1) =>
          match skipWs r1 with
          | ',' :: r2 => parseArrRest fuel r2 (v :: acc) false
          | ']' :: r2 => some (Jval.jarr ((v :: acc).reverse), r2)
          | _ => none

end

/-- One complete JSON document that is an object: `json.Unmarshal`
rejects syntax errors and trailing data. -/
def parseTopObject (l : List Char) : Option (List (List Char × Jval)) :=
  match parseValue (l.length + 1) l with
  | some (Jval.jobj fs, rest) => if skipWs rest = [] then some fs else none
  | _ => none

end MetricAI

namespace MetricAI

/-- The decision record produced by analysis (utils.go lines 42–46):
`Text`, `Promote`, `Confidence` with JSON tags `text`, `promote`,
`confidence`. -/
structure AIAnalysisResult where
  Text : List Char := []
  Promote : Bool := false
  Confidence : Int := 0
deriving DecidableEq

/-- The Go zero value `AIAnalysisResult{}`. -/
def zeroResult : AIAnalysisResult := {}

/-- ASCII lower-casing, used by Go's case-insensitive JSON field-name
matching (ASCII-only since Go 1.20). -/
def lowerAscii (c : Char) : Char :=
  if 'A' ≤ c ∧ c ≤ 'Z' then Char.ofNat (c.toNat + 32) else c

def foldKey (k : List Char) : List Char := k.map lowerAscii

/-- Decoding of one JSON object field into an existing
`AIAnalysisResult`, modelling Go `encoding/json` field matching: field
names match case-insensitively (the three all-lowercase tags `text`,
`promote`, `confidence` have no colliding case variants, so folding is
equivalent to Go's exact-then-case-insensitive rule); the fields
require a string, a boolean and an integral number respectively;
`null` is a no-op; an unknown key is skipped; a wrong-typed value
leaves the field untouched and flags an error, after which decoding of
the remaining fields continues — Go "skips that field and completes
the unmarshaling as best it can", returning the saved error at the
end.  Returns (error flagged, updated record). -/
def applyFieldInto (r : AIAnalysisResult) : List Char × Jval → Bool × AIAnalysisResult
  | (k, v) =>
    if foldKey k = ("text").data then
      match v with
      | Jval.jstr s => (false, { r with Text := s })
      | Jval.jnull => (false, r)
      | _ => (true, r)
    else if foldKey k = ("promote").data then
      match v with
      | Jval.jbool b => (false, { r with Promote := b })
      | Jval.jnull => (false, r)
      | _ => (true, r)
    else if foldKey k = ("confidence").data then
      match v with
      | Jval.jint n true => (false, { r with Confidence := n })
      | Jval.jnull => (false, r)
      | _ => (true, r)
    else (false, r)

def applyFieldsInto :
    AIAnalysisResult → Bool → List (List Char × Jval) → Bool × AIAnalysisResult
  | r, errSoFar, [] => (errSoFar, r)
  | r, errSoFar, f :: rest =>
    let p := applyFieldInto r f
    applyFieldsInto p.2 (errSoFar || p.1) rest

/-- Model of Go `json.Unmarshal([]byte(l), &obj)` decoding into an
existing record `obj = r` of type `AIAnalysisResult`.  Returns
`(ok, record)` where `ok` is true exactly when the call returns a nil
error.  Go validates the whole document before decoding anything, so a
syntactically invalid document — as well as one whose top-level value
is not an object, or with trailing data — leaves the record untouched;
a field-type error flags the error but the other fields are still
decoded. -/
def jsonUnmarshalIntoAI (r : AIAnalysisResult) (l : List Char) :
    Bool × AIAnalysisResult :=
  match parseTopObject l with
  | none => (false, r)
  | some fs =>
    let p := applyFieldsInto r false fs
    (!p.1, p.2)

/-- `json.Unmarshal` into a fresh (zero) `AIAnalysisResult`, reported
as `some record` exactly when the call returns a nil error. -/
def jsonUnmarshalAI (l : List Char) : Option AIAnalysisResult :=
  match jsonUnmarshalIntoAI zeroResult l with
  | (true, r) => some r
  | (false, _) => none

/-- A successful `jsonUnmarshalAI` is exactly a successful decode into
the zero record. -/
theorem jsonUnmarshalAI_eq_some {l : List Char} {r : AIAnalysisResult} :
    jsonUnmarshalAI l = some r ↔ jsonUnmarshalIntoAI zeroResult l = (true, r) := by
  unfold jsonUnmarshalAI
  rcases h : jsonUnmarshalIntoAI zeroResult l with ⟨ok, rec⟩
  cases ok <;> simp

/-- A document rejected before decoding (syntax error, non-object
top-level value, or trailing data) leaves the record untouched. -/
theorem jsonUnmarshalIntoAI_untouched (r : AIAnalysisResult) {l : List Char}
    (h : parseTopObject l = none) : jsonUnmarshalIntoAI r l = (false, r) := by
  unfold jsonUnmarshalIntoAI
  rw [h]

/-- Whitespace trimmed by Go `strings.TrimSpace` (ASCII fragment of
Unicode white space). -/
def isSpaceGo (c : Char) : Bool :=
  c = ' ' || c = '\t' || c = '\n' || c = '\r' ||
  c = Char.ofNat 11 || c = Char.ofNat 12

/-- Model of `strings.TrimSpace`. -/
def trimSpace (l : List Char) : List Char :=
  ((l.dropWhile isSpaceGo).reverse.dropWhile isSpaceGo).reverse

/-- Outcomes supplied by the environment to the direct-mode analyzer:
secret lookup, client construction, and the text obtained from the
retried `GenerateContent` call after `concatCandidates`. -/
structure DirectEnv where
  secret : Except (List Char) (List Char)
  clientOk : Except (List Char) Unit
  genText : Except (List Char) (List Char)

/-- Translation of `analyzeLogsWithAI` (utils.go lines 56–113) with the
three external calls replaced by the `DirectEnv` outcomes.  On a
successful model call the returned text is trimmed and unmarshalled
into the local `obj`; on failure the first JSON block is extracted
(note: `rawJSON` is reassigned to the extracted block) and `Unmarshal`
is retried once *into the same `obj`* — so fields decoded by the first
attempt persist — with the second error discarded; the function
returns a nil error in all of these cases. -/
def analyzeLogsWithAI (env : DirectEnv) :
    Except (List Char) (List Char × AIAnalysisResult) :=
  match env.secret with
  | Except.error e =>
    Except.error (("failed to get Google API key from secret: ").data ++ e)
  | Except.ok _ =>
    match env.clientOk with
    | Except.error e => Except.error e
    | Except.ok _ =>
      match env.genText with
      | Except.error e => Except.error e
      | Except.ok txt =>
        let rawJSON := trimSpace txt
        match jsonUnmarshalIntoAI zeroResult rawJSON with
        | (true, obj) => Except.ok (rawJSON, obj)
        | (false, obj1) =>
          let j := extractFirstJSON rawJSON
          if j = [] then Except.ok (rawJSON, obj1)
          else Except.ok (j, (jsonUnmarshalIntoAI obj1 j).2)

end MetricAI

namespace MetricAI

/-- The delegate's response (part_004 lines 27–34). -/
structure A2AResponse where
  Analysis : List Char := []
  RootCause : List Char := []
  Remediation : List Char := []
  PRLink : List Char := []
  Promote : Bool := false
  Confidence : Int := 0
deriving DecidableEq

/-- JSON string escaping used when re-marshalling the agent response. -/
def escChar (c : Char) : List Char :=
  if c = '"' then ['\\', '"']
  else if c = '\\' then ['\\', '\\']
  else if c = '\n' then ['\\', 'n']
  else if c = '\t' then ['\\', 't']
  else if c = '\r' then ['\\', 'r']
  else [c]

def escJson (s : List Char) : List Char :=
  s.foldr (fun c acc => escChar c ++ acc) []

/-- Model of `json.Marshal(jsonResp)` in `analyzeWithKubernetesAgent`
(ai_mode.go lines 72–87): Go marshals a `map[string]interface{}` with
its keys in sorted order, and the `prLink` key is present only when the
agent reported a change link. -/
def jsonMarshalAgentResp (r : A2AResponse) : List Char :=
  let pr : List Char :=
    if r.PRLink = [] then []
    else (",\"prLink\":\"").data ++ escJson r.PRLink ++ [ '"' ]
  '{' ::
    (("\"analysis\":\"").data ++ escJson r.Analysis ++
     ("\",\"confidence\":").data ++ (toString r.Confidence).data ++
     pr ++
     (",\"promote\":").data ++
     (if r.Promote then ("true").data else ("false").data) ++
     (",\"remediation\":\"").data ++ escJson r.Remediation ++
     ("\",\"rootCause\":\"").data ++ escJson r.RootCause ++
     [ '"', '}' ])

/-- Outcomes supplied by the environment to the delegation client: the
health probe and the `POST /a2a/analyze` exchange (transport failure,
non-200 status and undecodable body all collapse to `Except.error`,
exactly the cases where the Go client returns a non-nil error). -/
structure AgentEnv where
  health : Except (List Char) Unit
  resp : Except (List Char) A2AResponse

/-- Translation of `analyzeWithKubernetesAgent` (ai_mode.go lines
38–95), with the two network exchanges replaced by the `AgentEnv`
outcomes.  The outer `Option` propagates the `splitLogs` slice panic;
the decision record returned on success copies the agent's `analysis`,
`promote` and `confidence` fields verbatim. -/
def analyzeWithKubernetesAgent (env : AgentEnv) (logsContext : List Char) :
    Option (Except (List Char) (List Char × AIAnalysisResult)) :=
  match env.health with
  | Except.error e => some (Except.error e)
  | Except.ok _ =>
    match splitLogs logsContext with
    | none => none
    | some _ =>
      match env.resp with
      | Except.error e => some (Except.error e)
      | Except.ok r =>
        some (Except.ok (jsonMarshalAgentResp r,
          { Text := r.Analysis, Promote := r.Promote, Confidence := r.Confidence }))

end MetricAI

namespace MetricAI

/-- The model reply `{"text":"x","promote":true,"confidence":"high"}`:
both `Unmarshal` attempts fail with a field-type error on
`confidence`, after `text` and `promote` have been decoded. -/
def typeErrReply : List Char :=
  ("\x7b\"text\":\"x\",\"promote\":true,\"confidence\":\"high\"\x7d").data

/-- C2 (counterexample): two runs refute the claim as stated.  With
model text `"foo {bad}"` both parse attempts fail as syntax errors and
the zero-value record is returned with a nil error, but paired with
the extracted block `"{bad}"`, not the original raw text (the Go code
reassigns `rawJSON` before the second attempt).  With model text
`{"text":"x","promote":true,"confidence":"high"}` both parse attempts
fail (field-type error on `confidence`), yet the returned record is
not the zero value: Go's `json.Unmarshal` decodes the other fields
before reporting the type error, so the caller receives
`{Text:"x", Promote:true, Confidence:0}`. -/
theorem analyzeLogsWithAI_raw_text_counterexample :
    (analyzeLogsWithAI
         ⟨Except.ok [], Except.ok (), Except.ok (("foo \x7bbad\x7d").data)⟩
       = Except.ok (("\x7bbad\x7d").data, zeroResult) ∧
     jsonUnmarshalAI (trimSpace (("foo \x7bbad\x7d").data)) = none ∧
     jsonUnmarshalAI (("\x7bbad\x7d").data) = none ∧
     ("\x7bbad\x7d").data ≠ trimSpace (("foo \x7bbad\x7d").data)) ∧
    (analyzeLogsWithAI ⟨Except.ok [], Except.ok (), Except.ok typeErrReply⟩
       = Except.ok (typeErrReply,
           { Text := ("x").data, Promote := true, Confidence := 0 }) ∧
     jsonUnmarshalAI typeErrReply = none ∧
     ({ Text := ("x").data, Promote := true, Confidence := 0 } :
        AIAnalysisResult) ≠ zeroResult) :=
  ⟨⟨rfl, by decide, by decide, by decide⟩, ⟨rfl, by decide, by decide⟩⟩

/-- C2 (amended): if the direct-mode model call succeeds but the
returned text fails to parse as a decision record, and still fails to
parse after JSON extraction, `analyzeLogsWithAI` returns a nil error
together with the record as best-effort decoded by the two `Unmarshal`
attempts — the zero value exactly when the failing documents are
rejected before decoding (a syntax error leaves the record untouched),
while fields decoded before a field-type error are kept — paired with
the extracted JSON candidate when extraction found one and with the
original (trimmed) raw text otherwise. -/
theorem analyzeLogsWithAI_unparsable (env : DirectEnv) (sk txt : List Char)
    (hsec : env.secret = Except.ok sk)
    (hcli : env.clientOk = Except.ok ())
    (hgen : env.genText = Except.ok txt)
    (hp1 : (jsonUnmarshalIntoAI zeroResult (trimSpace txt)).1 = false)
    (hp2 : (jsonUnmarshalIntoAI (jsonUnmarshalIntoAI zeroResult (trimSpace txt)).2
              (extractFirstJSON (trimSpace txt))).1 = false) :
    (analyzeLogsWithAI env =
      Except.ok
        ((if extractFirstJSON (trimSpace txt) = []
          then trimSpace txt else extractFirstJSON (trimSpace txt)),
         (if extractFirstJSON (trimSpace txt) = []
          then (jsonUnmarshalIntoAI zeroResult (trimSpace txt)).2
          else (jsonUnmarshalIntoAI (jsonUnmarshalIntoAI zeroResult (trimSpace txt)).2
                  (extractFirstJSON (trimSpace txt))).2))) ∧
    (∀ r : AIAnalysisResult, ∀ l : List Char, parseTopObject l = none →
      jsonUnmarshalIntoAI r l = (false, r)) := by
  constructor
  · rcases hu : jsonUnmarshalIntoAI zeroResult (trimSpace txt) with ⟨ok, obj1⟩
    rw [hu] at hp1
    simp only at hp1
    subst hp1
    simp only [analyzeLogsWithAI, hsec, hcli, hgen, hu]
    by_cases hj : extractFirstJSON (trimSpace txt) = []
    · simp [hj]
    · simp [hj]
  · intro r l hnone
    exact jsonUnmarshalIntoAI_untouched r hnone

/-- C2 witness: the amended statement evaluated at the
field-type-error reply, whose returned record keeps the decoded `text`
and `promote` fields. -/
theorem analyzeLogsWithAI_unparsable_witness :
    analyzeLogsWithAI ⟨Except.ok [], Except.ok (), Except.ok typeErrReply⟩
      = Except.ok
          ((if extractFirstJSON (trimSpace typeErrReply) = []
            then trimSpace typeErrReply
            else extractFirstJSON (trimSpace typeErrReply)),
           (if extractFirstJSON (trimSpace typeErrReply) = []
            then (jsonUnmarshalIntoAI zeroResult (trimSpace typeErrReply)).2
            else (jsonUnmarshalIntoAI
                    (jsonUnmarshalIntoAI zeroResult (trimSpace typeErrReply)).2
                    (extractFirstJSON (trimSpace typeErrReply))).2)) :=
  (analyzeLogsWithAI_unparsable
    ⟨Except.ok [], Except.ok (), Except.ok typeErrReply⟩
    [] typeErrReply rfl rfl rfl (by decide) (by decide)).1

end MetricAI

namespace MetricAI

/-- C8 (counterexample): the model returns the well-formed decision
JSON `{"text":"x","promote":true,"confidence":150}`; the direct-mode
producer hands on a decision record whose confidence is 150, above 100
— no clamping into [0,100] happens anywhere. -/
theorem confidence_not_clamped_counterexample :
    analyzeLogsWithAI
        ⟨Except.ok [], Except.ok (),
         Except.ok (("\x7b\"text\":\"x\",\"promote\":true,\"confidence\":150\x7d").data)⟩
      = Except.ok
          ((("\x7b\"text\":\"x\",\"promote\":true,\"confidence\":150\x7d").data),
           { Text := ("x").data, Promote := true, Confidence := 150 }) ∧
    ¬ ({ Text := ("x").data, Promote := true,
         Confidence := 150 : AIAnalysisResult }.Confidence ≤ 100) :=
  ⟨rfl, by decide⟩

/-- C8 (amended): neither producing component clamps confidence.  In
direct mode the produced record is exactly the parsed JSON record, and
in delegated mode the produced record copies the agent response's
confidence verbatim, so out-of-range confidences are handed on
unchanged. -/
theorem confidence_passthrough :
    (∀ (env : DirectEnv) (sk txt : List Char) (obj : AIAnalysisResult),
      env.secret = Except.ok sk → env.clientOk = Except.ok () →
      env.genText = Except.ok txt →
      jsonUnmarshalAI (trimSpace txt) = some obj →
      analyzeLogsWithAI env = Except.ok (trimSpace txt, obj)) ∧
    (∀ (env : AgentEnv) (ctx : List Char) (r : A2AResponse)
        (sp : List Char × List Char),
      env.health = Except.ok () → env.resp = Except.ok r →
      splitLogs ctx = some sp →
      analyzeWithKubernetesAgent env ctx =
        some (Except.ok (jsonMarshalAgentResp r,
          { Text := r.Analysis, Promote := r.Promote,
            Confidence := r.Confidence }))) := by
  constructor
  · intro env sk txt obj hsec hcli hgen hp
    have hIn := jsonUnmarshalAI_eq_some.mp hp
    simp only [analyzeLogsWithAI, hsec, hcli, hgen, hIn]
  · intro env ctx r sp hh hr hs
    simp only [analyzeWithKubernetesAgent, hh, hr, hs]

/-- Sample agent response used by the C8 witness. -/
def sampleAgentResp : A2AResponse :=
  { Analysis := ("fine").data, Promote := true, Confidence := 55 }

/-- Sample parsed decision record used by the C8 witness. -/
def sampleDirectEnv : DirectEnv :=
  ⟨Except.ok [], Except.ok (),
   Except.ok (("\x7b\"text\":\"ok\",\"promote\":true,\"confidence\":7\x7d").data)⟩

/-- C8 witness: the amended statement evaluated in both modes on
concrete inputs. -/
theorem confidence_passthrough_witness :
    analyzeLogsWithAI sampleDirectEnv
      = Except.ok
          (trimSpace (("\x7b\"text\":\"ok\",\"promote\":true,\"confidence\":7\x7d").data),
           { Text := ("ok").data, Promote := true, Confidence := 7 }) ∧
    analyzeWithKubernetesAgent ⟨Except.ok (), Except.ok sampleAgentResp⟩
        (("no markers").data)
      = some (Except.ok (jsonMarshalAgentResp sampleAgentResp,
          { Text := sampleAgentResp.Analysis, Promote := sampleAgentResp.Promote,
            Confidence := sampleAgentResp.Confidence })) :=
  ⟨confidence_passthrough.1 sampleDirectEnv
      [] (("\x7b\"text\":\"ok\",\"promote\":true,\"confidence\":7\x7d").data)
      { Text := ("ok").data, Promote := true, Confidence := 7 }
      rfl rfl rfl (by decide),
   confidence_passthrough.2 ⟨Except.ok (), Except.ok sampleAgentResp⟩
      (("no markers").data) sampleAgentResp ((("no markers").data), [])
      rfl rfl (by decide)⟩

end MetricAI

namespace MetricAI

def typeURLRetryInfo : List Char :=
  ("type.googleapis.com/google.rpc.RetryInfo").data

/-- One structured error detail entry of a `genai.APIError`.
`retryDelay = some d` models a detail carrying a non-empty
`"retryDelay"` string that `time.ParseDuration` parses to `d`
nanoseconds; `none` models an absent, empty or unparseable field. -/
structure RetryDetail where
  typeURL : List Char
  retryDelay : Option Int
deriving DecidableEq

/-- The `genai.APIError` fields inspected by `retryWithBackoff`. -/
structure APIError where
  Code : Nat
  Status : List Char
  Details : List RetryDetail
deriving DecidableEq

/-- An error returned by the wrapped operation: either a `genai.APIError`
(value type, as asserted by the Go code) or any other error. -/
inductive OpError where
  | api (e : APIError)
  | other (msg : List Char)
deriving DecidableEq

/-- The rate-limit test of utils.go line 147: code 429
(`http.StatusTooManyRequests`) or status `RESOURCE_EXHAUSTED`, on an
error that is a `genai.APIError`. -/
def isRateLimited : OpError → Bool
  | OpError.api e => (e.Code == 429) || (e.Status == ("RESOURCE_EXHAUSTED").data)
  | OpError.other _ => false

/-- The detail scan of utils.go lines 149–178: walks the detail entries
in order and keeps the last successfully parsed `retryDelay` of a
RetryInfo entry (QuotaFailure entries are only logged). -/
def scanApiWait : List RetryDetail → Int → Int
  | [], acc => acc
  | d :: rest, acc =>
    scanApiWait rest
      (if d.typeURL = typeURLRetryInfo then
        match d.retryDelay with
        | some p => p
        | none => acc
      else acc)

/-- `apiWaitTime` computed for an error (0 when no hint was parsed). -/
def apiWait : OpError → Int
  | OpError.api e => scanApiWait e.Details 0
  | OpError.other _ => 0

/-- Model of `backoff.ExponentialBackOff` from cenkalti/backoff/v5, in
nanoseconds.  The randomization factor is handled by the loop's jitter
oracle; the multiplier is the 2.0 the code configures. -/
structure ExpBackOff where
  initialInterval : Nat
  maxInterval : Nat
  multiplier : Nat
  currentInterval : Nat
deriving DecidableEq

/-- `ExponentialBackOff.Reset`: sets the current interval to the
initial interval (and nothing else). -/
def resetBackOff (b : ExpBackOff) : ExpBackOff :=
  { b with currentInterval := b.initialInterval }

/-- The hint application of utils.go lines 187–190, in the order the Go
code performs it: `Reset()` first (which copies the *old*
`InitialInterval` into the current interval), then the assignments
`InitialInterval = apiWaitTime` and `MaxInterval = apiWaitTime`. -/
def applyHint (b : ExpBackOff) (w : Nat) : ExpBackOff :=
  let b1 := resetBackOff b
  { b1 with initialInterval := w, maxInterval := w }

/-- `ExponentialBackOff.incrementCurrentInterval` of backoff/v5: once
the current interval would exceed the cap when multiplied, it is pinned
to `MaxInterval`, otherwise it is multiplied. -/
def incrementCurrent (b : ExpBackOff) : ExpBackOff :=
  if b.maxInterval ≤ b.currentInterval * b.multiplier then
    { b with currentInterval := b.maxInterval }
  else
    { b with currentInterval := b.currentInterval * b.multiplier }

/-- `backoff.Retry`'s default elapsed-time budget in backoff/v5
(`DefaultMaxElapsedTime = 15 * time.Minute`), which applies because
`retryWithBackoff` passes no `WithMaxElapsedTime` option. -/
def maxElapsedTimeNs : Nat := 900000000000

/-- Outcome of a `retryWithBackoff` run: number of operation
invocations, the waits slept between them (in order), and the last
error (`none` means the operation succeeded and a nil error is
returned). -/
structure RetryResult where
  attempts : Nat
  waits : List Nat
  err : Option OpError
deriving DecidableEq

/-- The retry loop: `operationWithLogging` (utils.go lines 130–207)
driven by the `backoff.Retry` loop of backoff/v5.  `ops n` is the error
of the `n`-th operation call (`none` = success); `jit i c` is the
jittered wait drawn by `NextBackOff` for current interval `c` before
attempt `i + 1` (the Go library draws uniformly from
`[0.9·c, 1.1·c + 1]`).  Since `retryWithBackoff` passes no
`WithMaxTries` option, the library does not bound the number of
attempts; it stops only on success, on a permanent (non-rate-limit)
error, or when the next wait would push the elapsed time over
`maxElapsedTimeNs`.  The fuel argument only serves termination and the
theorems supply more than the elapsed-time budget can consume; `none`
means the fuel ran out. -/
def retryLoop (ops : Nat → Option OpError) (jit : Nat → Nat → Nat) :
    Nat → ExpBackOff → Nat → Nat → List Nat → Option RetryResult
  | 0, _, _, _, _ => none
  | fuel + 1, b, attempt, elapsed, waits =>
    match ops attempt with
    | none => some ⟨attempt + 1, waits.reverse, none⟩
    | some e =>
      if isRateLimited e then
        let w := apiWait e
        let b1 := if 0 < w then applyHint b w.toNat else b
        let cur := if b1.currentInterval = 0 then b1.initialInterval
                   else b1.currentInterval
        let next := jit (attempt + 1) cur
        let b2 := incrementCurrent { b1 with currentInterval := cur }
        if maxElapsedTimeNs < elapsed + next then
          some ⟨attempt + 1, waits.reverse, some e⟩
        else
          retryLoop ops jit fuel b2 (attempt + 1) (elapsed + next) (next :: waits)
      else some ⟨attempt + 1, waits.reverse, some e⟩

/-- Translation of `retryWithBackoff` (utils.go lines 116–216): the
backoff is configured with initial interval 1s, max interval 60s,
multiplier 2.0 and then `Reset()`; `maxRetries` is received but — as in
the Go code — never used.  The context is `context.Background()` and is
never cancelled. -/
def retryWithBackoff (ops : Nat → Option OpError) (jit : Nat → Nat → Nat)
    (maxRetries : Nat) (fuel : Nat) : Option RetryResult :=
  let b : ExpBackOff :=
    { initialInterval := 1000000000, maxInterval := 60000000000,
      multiplier := 2, currentInterval := 0 }
  retryLoop ops jit fuel (resetBackOff b) 0 0 []

/-- The value surfaced to the caller of `retryWithBackoff`: `none` for a
nil error; `some (n, e)` for the aggregate error
`"max retries exceeded after n attempts, last error: e"`. -/
def retryAggregate (r : RetryResult) : Option (Nat × OpError) :=
  r.err.map (fun e => (r.attempts, e))

end MetricAI

namespace MetricAI

/-- An operation that always fails rate-limited (HTTP 429 /
RESOURCE_EXHAUSTED) with no retry hint. -/
def ops429 : Nat → Option OpError :=
  fun _ => some (OpError.api ⟨429, ("RESOURCE_EXHAUSTED").data, []⟩)

/-- The midpoint draw of the ±10% jitter: `NextBackOff` returns the
current interval itself. -/
def midJitter : Nat → Nat → Nat := fun _ c => c

/-- An operation that always fails rate-limited with a RetryInfo detail
carrying `retryDelay: "30s"` (30 000 000 000 ns). -/
def opsHint30 : Nat → Option OpError :=
  fun _ => some (OpError.api ⟨429, ("RESOURCE_EXHAUSTED").data,
    [⟨typeURLRetryInfo, some 30000000000⟩]⟩)

/-- An operation whose first failure carries the `"30s"` retry hint and
whose later failures are rate-limited without any hint. -/
def opsHintOnce : Nat → Option OpError :=
  fun n =>
    if n = 0 then
      some (OpError.api ⟨429, ("RESOURCE_EXHAUSTED").data,
        [⟨typeURLRetryInfo, some 30000000000⟩]⟩)
    else some (OpError.api ⟨429, ("RESOURCE_EXHAUSTED").data, []⟩)

/-- C3: `retryWithBackoff` does not cap the attempts at
`maxRetries = 3`: for the always-rate-limited operation (with the
midpoint jitter draw) it invokes the operation 20 times, stopping only
at the backoff library's 15-minute elapsed-time default, and then
surfaces the aggregate error naming the attempt count (20, not 3) and
the last underlying error.  The `maxRetries` parameter is never read by
the implementation. -/
theorem retryWithBackoff_ignores_maxRetries :
    (retryWithBackoff ops429 midJitter 3 40).map RetryResult.attempts
        = some 20 ∧
    (retryWithBackoff ops429 midJitter 3 40).map retryAggregate
        = some (some (20, OpError.api ⟨429, ("RESOURCE_EXHAUSTED").data, []⟩)) ∧
    ¬ (20 ≤ 3) :=
  ⟨rfl, rfl, by decide⟩

/-- C4: for every operation whose first error is not a rate-limit
signal (not an APIError with code 429 or status RESOURCE_EXHAUSTED),
`retryWithBackoff` invokes the operation exactly once — no waits are
slept — and surfaces the failure, regardless of the `maxRetries` budget
and of the remaining fuel. -/
theorem retryWithBackoff_permanent_one_attempt
    (ops : Nat → Option OpError) (jit : Nat → Nat → Nat)
    (maxRetries f : Nat) (e : OpError)
    (hop : ops 0 = some e) (hnr : isRateLimited e = false) :
    retryWithBackoff ops jit maxRetries (f + 1) = some ⟨1, [], some e⟩ := by
  simp [retryWithBackoff, retryLoop, hop, hnr]

/-- C4 witness: a concrete non-rate-limited failure. -/
theorem retryWithBackoff_permanent_one_attempt_witness :
    retryWithBackoff (fun _ => some (OpError.other ("boom").data)) midJitter 3 9
      = some ⟨1, [], some (OpError.other ("boom").data)⟩ :=
  retryWithBackoff_permanent_one_attempt
    (fun _ => some (OpError.other ("boom").data)) midJitter 3 8
    (OpError.other ("boom").data) rfl (by decide)

/-- C5: the parsed retry hint is *not* used as the wait before the next
attempt: because the code calls `Reset()` before assigning
`InitialInterval`/`MaxInterval`, the wait after the first hinted
failure is the previous current interval (1s), and the 30s hint first
governs the wait after the second hinted failure.  Moreover the pinning
is not limited to a single retry: after one hinted failure followed by
hint-free rate-limited failures, the exponential schedule resumes but
stays pinned at the 30s cap (1s, 2s, 4s, 8s, 16s, 30s, 30s, …) instead
of returning to the configured 60s cap. -/
theorem retry_hint_applied_one_round_late :
    (retryWithBackoff opsHint30 midJitter 3 50).map (fun r => r.waits.take 3)
        = some [1000000000, 30000000000, 30000000000] ∧
    (1000000000 : Nat) ≠ 30000000000 ∧
    (retryWithBackoff opsHintOnce midJitter 3 50).map (fun r => r.waits.take 8)
        = some [1000000000, 2000000000, 4000000000, 8000000000,
                16000000000, 30000000000, 30000000000, 30000000000] :=
  ⟨rfl, by decide, rfl⟩

end MetricAI

namespace MetricAI

def phaseSuccessful : List Char := ("Successful").data

def phaseFailed : List Char := ("Failed").data

def phaseError : List Char := ("Error").data

/-- The fields of `v1alpha1.Measurement` that `Run` writes (timestamps
are not modelled). -/
structure Measurement where
  value : List Char := []
  phase : List Char := []
  message : List Char := []
  metadata : List (List Char × List Char) := []
deriving DecidableEq

/-- Translation of `markMeasurementError` (part_006 lines 318–324). -/
def markMeasurementError (m : Measurement) (err : List Char) : Measurement :=
  { m with phase := phaseError, message := err }

/-- The `aiConfig` plugin configuration (part_006 lines 101–119); Go
zero values throughout. -/
structure AiConfig where
  Model : List Char := []
  StableLabel : List Char := []
  CanaryLabel : List Char := []
  BaseBranch : List Char := []
  GitHubURL : List Char := []
  AnalysisMode : List Char := []
  Namespace : List Char := []
  PodName : List Char := []
  ExtraPrompt : List Char := []
deriving DecidableEq

/-- A Go error as observed by `Run`: its message and whether
`errors.IsNotFound` holds for it. -/
structure GoErr where
  msg : List Char
  isNotFound : Bool
deriving DecidableEq

/-- Network interactions performed during one `Run` invocation. -/
inductive NetEvent where
  | kubeFetchLogs (ns selector : List Char)
  | kubeHashList (hash : List Char)
  | secretFetch
  | modelCall (model : List Char)
  | agentHealth
  | agentAnalyze (ns pod : List Char)
deriving DecidableEq

def analysisModeDefault : List Char := ("default").data

def analysisModeAgent : List Char := ("agent").data

/-- Outcomes supplied by the environment to one `Run` invocation:
plugin-config lookup/parse, Kubernetes client acquisition, the two
pod-log fetches, the client and pod-list of the template-hash
resolution, and the two analysis back ends. -/
structure RunEnv where
  pluginCfg : Option (Except (List Char) AiConfig)
  kubeClient : Except (List Char) Unit
  stableLogs : Except GoErr (List Char)
  canaryLogs : Except GoErr (List Char)
  hashClient : Except (List Char) Unit
  hashPods : Except (List Char) (List (List Char))
  direct : DirectEnv
  agent : AgentEnv

/-- Network events of the direct-mode analyzer: the secret lookup is
always attempted; the model is called (through the retry controller)
once secret and client are available. -/
def directEvents (direct : DirectEnv) (modelName : List Char) : List NetEvent :=
  NetEvent.secretFetch ::
    (match direct.secret, direct.clientOk with
     | Except.ok _, Except.ok _ => [NetEvent.modelCall modelName]
     | _, _ => [])

/-- Network events of the delegation client: the health probe is always
attempted; the analyze request is sent only after a healthy probe and a
successful log split. -/
def agentEvents (agent : AgentEnv) (ns pod ctx : List Char) : List NetEvent :=
  NetEvent.agentHealth ::
    (match agent.health, splitLogs ctx with
     | Except.ok _, some _ => [NetEvent.agentAnalyze ns pod]
     | _, _ => [])

/-- Translation of `analyzeWithMode` (ai_mode.go lines 17–35): the
`agent` mode goes to the delegation client, every other mode value to
the direct analyzer; paired with the network events of the chosen
back end.  The outer `Option` propagates the `splitLogs` panic. -/
def analyzeWithMode (mode modelName ns pod ctx : List Char)
    (direct : DirectEnv) (agent : AgentEnv) :
    Option (Except (List Char) (List Char × AIAnalysisResult) × List NetEvent) :=
  if mode = analysisModeAgent then
    match analyzeWithKubernetesAgent agent ctx with
    | none => none
    | some out => some (out, agentEvents agent ns pod ctx)
  else some (analyzeLogsWithAI direct, directEvents direct modelName)

def twoDigits (m : Nat) : List Char :=
  if m < 10 then '0' :: (toString m).data else (toString m).data

/-- Model of `fmt.Sprintf("%.2f", float64(c)/100.0)` for an integer
confidence `c`: the exact decimal rendering of `c/100` with two
fractional digits.  For every integer with `|c| ≤ 2^52` the nearest
`float64` to `c/100` is closer to `c/100` than to any other multiple of
`0.01`, so Go's correctly rounded `%.2f` prints exactly this string;
the claims only use `c ∈ [0,100]`. -/
def fmtConfidence (c : Int) : List Char :=
  let n := c.natAbs
  let core := (toString (n / 100)).data ++ '.' :: twoDigits (n % 100)
  if c < 0 then '-' :: core else core

/-- The tail of `Run` from the `analyzeWithMode` call on (part_006
lines 274–314): analysis failure becomes an error measurement; on
success the analysis is stored in metadata and the verdict is resolved
— promote gives value `%.2f` of confidence/100 and phase Successful,
otherwise value `"0"` and phase Failed (the GitHub-issue side effect of
the failure branch is the out-of-scope remediation collaborator and
only logs its own errors). -/
def runAnalyzeStep (mode modelName ns pod ctx : List Char)
    (direct : DirectEnv) (agent : AgentEnv) (evs : List NetEvent) :
    Option (Measurement × List NetEvent) :=
  match analyzeWithMode mode modelName ns pod ctx direct agent with
  | none => none
  | some (out, evs2) =>
    match out with
    | Except.error e => some (markMeasurementError {} e, evs ++ evs2)
    | Except.ok (raw, result) =>
      let meta : List (List Char × List Char) :=
        [(("analysis").data, result.Text),
         (("analysisJSON").data, raw),
         (("confidence").data, (toString result.Confidence).data)]
      if result.Promote then
        some ({ value := fmtConfidence result.Confidence,
                phase := phaseSuccessful, message := [], metadata := meta },
              evs ++ evs2)
      else
        some ({ value := ("0").data, phase := phaseFailed,
                message := [], metadata := meta },
              evs ++ evs2)

/-- Translation of `Run` (part_006 lines 138–315): configuration
parsing with defaulting, client acquisition, the stable and canary log
fetches (canary not-found is a successful `"1"` measurement), context
assembly, the agent-mode requirement that namespace and podName be
non-empty, template-hash resolution when the pod name has no dash, and
the mode-dispatched analysis; paired with the trace of network
interactions in order. -/
def runModel (env : RunEnv) (nsRun : List Char) :
    Option (Measurement × List NetEvent) :=
  let cfgRes : Except (List Char) AiConfig :=
    match env.pluginCfg with
    | none => Except.ok {}
    | some r => r
  match cfgRes with
  | Except.error e => some (markMeasurementError {} e, [])
  | Except.ok cfg =>
    let stableSelector := if cfg.StableLabel = [] then ("role=stable").data
                          else cfg.StableLabel
    let canarySelector := if cfg.CanaryLabel = [] then ("role=canary").data
                          else cfg.CanaryLabel
    let modelName := if cfg.Model = [] then ("gemini-2.0-flash").data
                     else cfg.Model
    match env.kubeClient with
    | Except.error e => some (markMeasurementError {} e, [])
    | Except.ok _ =>
      match env.stableLogs with
      | Except.error e =>
        some (markMeasurementError {} e.msg,
              [NetEvent.kubeFetchLogs nsRun stableSelector])
      | Except.ok stableTxt =>
        let evs0 := [NetEvent.kubeFetchLogs nsRun stableSelector,
                     NetEvent.kubeFetchLogs nsRun canarySelector]
        match env.canaryLogs with
        | Except.error e =>
          if e.isNotFound then
            some ({ value := ("1").data, phase := phaseSuccessful,
                    message := [], metadata := [] }, evs0)
          else some (markMeasurementError {} e.msg, evs0)
        | Except.ok canaryTxt =>
          let ctx := ("--- STABLE LOGS ---\n").data ++ stableTxt ++
                     ("\n\n--- CANARY LOGS ---\n").data ++ canaryTxt
          let mode := if cfg.AnalysisMode = [] then analysisModeDefault
                      else cfg.AnalysisMode
          if mode = analysisModeAgent ∧ (cfg.Namespace = [] ∨ cfg.PodName = []) then
            some (markMeasurementError {}
                    (("agent mode requires namespace and podName to be configured").data),
                  evs0)
          else
            if mode = analysisModeAgent ∧ (cfg.PodName.contains '-') = false then
              match env.hashClient with
              | Except.error e =>
                some (markMeasurementError {}
                        (("failed to create k8s client: ").data ++ e), evs0)
              | Except.ok _ =>
                let evs1 := evs0 ++ [NetEvent.kubeHashList cfg.PodName]
                match env.hashPods with
                | Except.error e =>
                  some (markMeasurementError {}
                          (("failed to find pod with template hash ").data ++
                           cfg.PodName ++ (": ").data ++ e), evs1)
                | Except.ok [] =>
                  some (markMeasurementError {}
                          (("no pods found with template hash ").data ++
                           cfg.PodName), evs1)
                | Except.ok (p :: _) =>
                  runAnalyzeStep mode modelName cfg.Namespace p ctx
                    env.direct env.agent evs1
            else
              runAnalyzeStep mode modelName cfg.Namespace cfg.PodName ctx
                env.direct env.agent evs0

end MetricAI

namespace MetricAI

/-- Configuration requesting delegated mode with an empty target
identifier. -/
def cfgAgentNoPod : AiConfig :=
  { AnalysisMode := ("agent").data, Namespace := ("default").data,
    PodName := [] }

/-- A run environment in which the cluster is reachable and both log
fetches succeed, but the delegated mode is requested without a pod
name. -/
def envAgentNoPod : RunEnv :=
  { pluginCfg := some (Except.ok cfgAgentNoPod),
    kubeClient := Except.ok (),
    stableLogs := Except.ok (("S").data),
    canaryLogs := Except.ok (("C").data),
    hashClient := Except.ok (),
    hashPods := Except.ok [],
    direct := ⟨Except.ok [], Except.ok (), Except.ok []⟩,
    agent := ⟨Except.ok (), Except.ok {}⟩ }

/-- C7 (counterexample): with delegated mode requested and an empty pod
name, `Run` does produce the configuration error and never reaches an
analysis back end — but it has already made network calls for the
invocation: both pod-log fetches against the cluster happen before the
check, so the trace of network interactions is not empty. -/
theorem run_agent_missing_pod_counterexample :
    runModel envAgentNoPod (("default").data)
      = some (markMeasurementError {}
                (("agent mode requires namespace and podName to be configured").data),
              [NetEvent.kubeFetchLogs (("default").data) (("role=stable").data),
               NetEvent.kubeFetchLogs (("default").data) (("role=canary").data)]) ∧
    [NetEvent.kubeFetchLogs (("default").data) (("role=stable").data),
     NetEvent.kubeFetchLogs (("default").data) (("role=canary").data)]
      ≠ ([] : List NetEvent) := by
  refine ⟨by decide, by decide⟩

/-- C7 (amended): when delegated (agent) mode is requested and the
namespace or the target identifier (podName) is empty, `Run` fails with
the configuration error before any analysis is attempted, never falls
back to direct mode, and makes no analysis network calls — no model
call, no secret fetch, no agent health probe or analyze request, no
template-hash pod listing; the only network interactions of the
invocation are the two pod-log fetches `Run` has already performed
before the check. -/
theorem run_agent_missing_target_config_error
    (env : RunEnv) (nsRun sl cl : List Char) (cfg : AiConfig)
    (hcfg : env.pluginCfg = some (Except.ok cfg))
    (hmode : cfg.AnalysisMode = ("agent").data)
    (hmiss : cfg.Namespace = [] ∨ cfg.PodName = [])
    (hkc : env.kubeClient = Except.ok ())
    (hsl : env.stableLogs = Except.ok sl)
    (hcl : env.canaryLogs = Except.ok cl) :
    runModel env nsRun =
      some (markMeasurementError {}
              (("agent mode requires namespace and podName to be configured").data),
            [NetEvent.kubeFetchLogs nsRun
               (if cfg.StableLabel = [] then ("role=stable").data
                else cfg.StableLabel),
             NetEvent.kubeFetchLogs nsRun
               (if cfg.CanaryLabel = [] then ("role=canary").data
                else cfg.CanaryLabel)]) := by
  simp only [runModel, hcfg, hkc, hsl, hcl, hmode]
  rw [if_neg (by decide : ¬ (("agent").data = [])), if_pos ⟨rfl, hmiss⟩]

/-- C7 witness for the amended statement. -/
theorem run_agent_missing_target_config_error_witness :
    runModel envAgentNoPod (("ns1").data) =
      some (markMeasurementError {}
              (("agent mode requires namespace and podName to be configured").data),
            [NetEvent.kubeFetchLogs (("ns1").data)
               (if cfgAgentNoPod.StableLabel = [] then ("role=stable").data
                else cfgAgentNoPod.StableLabel),
             NetEvent.kubeFetchLogs (("ns1").data)
               (if cfgAgentNoPod.CanaryLabel = [] then ("role=canary").data
                else cfgAgentNoPod.CanaryLabel)]) :=
  run_agent_missing_target_config_error envAgentNoPod (("ns1").data)
    (("S").data) (("C").data) cfgAgentNoPod rfl rfl (Or.inr rfl) rfl rfl rfl

end MetricAI

namespace MetricAI

/-- C1: for every decision record `r` parsed from a successful
direct-mode model call (default configuration) with confidence in
[0,100]: when `r.Promote` is true, `Run` produces a Successful
measurement whose caller-visible value is `confidence/100` formatted to
two decimal places (confidence 100 gives `"1.00"`, confidence 0 gives
`"0.00"`); when `r.Promote` is false, the measurement value is the
string `"0"` (and the phase Failed) regardless of confidence. -/
theorem run_resolves_decision
    (env : RunEnv) (nsRun sl cl sk txt : List Char) (r : AIAnalysisResult)
    (hcfg : env.pluginCfg = none)
    (hkc : env.kubeClient = Except.ok ())
    (hsl : env.stableLogs = Except.ok sl)
    (hcl : env.canaryLogs = Except.ok cl)
    (hsec : env.direct.secret = Except.ok sk)
    (hcli : env.direct.clientOk = Except.ok ())
    (hgen : env.direct.genText = Except.ok txt)
    (hp : jsonUnmarshalAI (trimSpace txt) = some r)
    (hc0 : 0 ≤ r.Confidence) (hc100 : r.Confidence ≤ 100) :
    runModel env nsRun = some
      ({ value := if r.Promote then fmtConfidence r.Confidence
                  else ("0").data,
         phase := if r.Promote then phaseSuccessful else phaseFailed,
         message := [],
         metadata := [(("analysis").data, r.Text),
                      (("analysisJSON").data, trimSpace txt),
                      (("confidence").data, (toString r.Confidence).data)] },
       [NetEvent.kubeFetchLogs nsRun (("role=stable").data),
        NetEvent.kubeFetchLogs nsRun (("role=canary").data),
        NetEvent.secretFetch,
        NetEvent.modelCall (("gemini-2.0-flash").data)]) ∧
    fmtConfidence 100 = ("1.00").data ∧
    fmtConfidence 0 = ("0.00").data := by
  refine ⟨?_, by decide, by decide⟩
  have hIn := jsonUnmarshalAI_eq_some.mp hp
  simp only [runModel, hcfg, hkc, hsl, hcl, runAnalyzeStep, analyzeWithMode,
    directEvents, analyzeLogsWithAI, hsec, hcli, hgen, hIn]
  by_cases hpr : r.Promote
  · simp +decide [hpr]
  · simp +decide [hpr]

end MetricAI

namespace MetricAI

/-- Model reply used by the C1 witness. -/
def promote37Json : List Char :=
  ("\x7b\"text\":\"ok\",\"promote\":true,\"confidence\":37\x7d").data

/-- Decision record parsed from `promote37Json`. -/
def recPromote37 : AIAnalysisResult :=
  { Text := ("ok").data, Promote := true, Confidence := 37 }

/-- Environment used by the C1 witness: default configuration, healthy
cluster, successful direct-mode call answering `promote37Json`. -/
def envDirectPromote : RunEnv :=
  { pluginCfg := none,
    kubeClient := Except.ok (),
    stableLogs := Except.ok (("S").data),
    canaryLogs := Except.ok (("C").data),
    hashClient := Except.ok (),
    hashPods := Except.ok [],
    direct := ⟨Except.ok [], Except.ok (), Except.ok promote37Json⟩,
    agent := ⟨Except.ok (), Except.ok {}⟩ }

/-- C1 witness: a promote decision with confidence 37 yields a
Successful measurement with value `"0.37"`. -/
theorem run_resolves_decision_witness :
    runModel envDirectPromote (("default").data) = some
      ({ value := if recPromote37.Promote then fmtConfidence recPromote37.Confidence
                  else ("0").data,
         phase := if recPromote37.Promote then phaseSuccessful else phaseFailed,
         message := [],
         metadata := [(("analysis").data, recPromote37.Text),
                      (("analysisJSON").data, trimSpace promote37Json),
                      (("confidence").data, (toString recPromote37.Confidence).data)] },
       [NetEvent.kubeFetchLogs (("default").data) (("role=stable").data),
        NetEvent.kubeFetchLogs (("default").data) (("role=canary").data),
        NetEvent.secretFetch,
        NetEvent.modelCall (("gemini-2.0-flash").data)]) ∧
    fmtConfidence 100 = ("1.00").data ∧
    fmtConfidence 0 = ("0.00").data :=
  run_resolves_decision envDirectPromote (("default").data)
    (("S").data) (("C").data) [] promote37Json recPromote37
    rfl rfl rfl rfl rfl rfl rfl (by decide) (by decide) (by decide)

end MetricAI
